import Mathlib

/-!
Verification of the `express-mssql-pooling` repository's connection-pool and
streaming-query core against its natural-language specification.

The development shallowly embeds, from the JavaScript source:
  * the JSON documents produced on the wire by the streaming controllers
    (`src/controllers/apiController.js`) together with an executable JSON
    parser used to state "the bytes parse as a JSON document";
  * the helpers of `src/utils/json.js` (`safeJSONStringify`, `createMetadata`,
    `createStreamingHeaders`);
  * the response/state machine of `streamRecords` and
    `streamRecords_FOR_JSON_PATH`, including `createSafeEndJSON` and the
    timeout/error/done/row event handlers;
  * the pool module `src/services/database.js` (`validateEnvironment`,
    `getDbConfig`, `getConnectionPool`, `executeQuery`), with JavaScript's
    run-to-first-await semantics for the async initialization IIFE made
    explicit;
  * the error classifier `src/utils/errorHandler.js` (`DatabaseError`,
    `errorMiddleware`) and the application's routing/404 behaviour
    (`src/app.js`, `src/routes/apiRouter.js`).

Machine integers do not occur on the verified paths; JavaScript strings are
modelled as Lean `String`/`List Char`, JavaScript `undefined`/`null` as
`Option`, and exceptions as `Except`/explicit outcome values.
-/

namespace EMP

/-! ## JSON documents

`Json` is the space of JSON values relevant to the streamed responses
(`null`, booleans, strings, arrays, objects — the driver's numeric cells are
abstracted as opaque leaf values, which is immaterial to the framing claims
proved here).  `Json.emit` reproduces the compact output of JavaScript's
`JSON.stringify`; `jparse` is an executable, whitespace-tolerant JSON reader
used to express "this byte sequence is a well-formed JSON document". -/

inductive Json where
  | null
  | bool (b : Bool)
  | str (s : String)
  | arr (items : List Json)
  | obj (props : List (String × Json))
deriving Repr

/-- The `JSON.stringify` escaping of one string character (the escapes that the
two-character sequences cover; other characters pass through verbatim). -/
def escChar (c : Char) : List Char :=
  if c = '"' then ['\\', '"']
  else if c = '\\' then ['\\', '\\']
  else if c = '\n' then ['\\', 'n']
  else if c = '\t' then ['\\', 't']
  else if c = '\r' then ['\\', 'r']
  else [c]

/-- Escape a whole string body, character by character. -/
def escBody : List Char → List Char
  | [] => []
  | c :: cs => escChar c ++ escBody cs

/-- A JSON string literal: quote, escaped body, quote. -/
def quoteStr (s : String) : List Char :=
  '"' :: (escBody s.data ++ ['"'])

mutual
/-- Compact rendering, as `JSON.stringify` emits it (no whitespace). -/
def Json.emit : Json → List Char
  | .obj props => '{' :: (Json.emitProps props ++ ['}'])
  | .arr items => '[' :: (Json.emitItems items ++ [']'])
  | .str s => quoteStr s
  | .bool false => ['f', 'a', 'l', 's', 'e']
  | .bool true => ['t', 'r', 'u', 'e']
  | .null => ['n', 'u', 'l', 'l']

/-- Comma-separated renderings of array elements. -/
def Json.emitItems : List Json → List Char
  | [] => []
  | j :: rest => j.emit ++ Json.emitItemsTail rest

/-- The `, element` continuations after the first array element. -/
def Json.emitItemsTail : List Json → List Char
  | [] => []
  | j :: rest => ',' :: (j.emit ++ Json.emitItemsTail rest)

/-- Comma-separated `"key":value` renderings of object members. -/
def Json.emitProps : List (String × Json) → List Char
  | [] => []
  | (k, v) :: rest => quoteStr k ++ ':' :: (v.emit ++ Json.emitPropsTail rest)

/-- The `, "key":value` continuations after the first object member. -/
def Json.emitPropsTail : List (String × Json) → List Char
  | [] => []
  | (k, v) :: rest => ',' :: (quoteStr k ++ ':' :: (v.emit ++ Json.emitPropsTail rest))
end

/-- Whitespace characters the reader tolerates between tokens. -/
def isWsC (c : Char) : Bool :=
  c = ' ' || c = '\n' || c = '\t' || c = '\r'

/-- Drop leading whitespace. -/
def dropWs : List Char → List Char
  | [] => []
  | c :: cs => if isWsC c then dropWs cs else c :: cs

/-- Invert a two-character escape's second character. -/
def unesc (c : Char) : Option Char :=
  if c = '"' then some '"'
  else if c = '\\' then some '\\'
  else if c = 'n' then some '\n'
  else if c = 't' then some '\t'
  else if c = 'r' then some '\r'
  else none

/-- Read a string body after its opening quote; yields the decoded characters
and the input remaining after the closing quote. -/
def scanStr : List Char → Option (List Char × List Char)
  | [] => none
  | '"' :: cs => some ([], cs)
  | '\\' :: [] => none
  | '\\' :: e :: cs2 =>
    (match unesc e, scanStr cs2 with
     | some u, some (body, rest) => some (u :: body, rest)
     | _, _ => none)
  | c :: cs =>
    (match scanStr cs with
     | some (body, rest) => some (c :: body, rest)
     | none => none)

mutual
/-- Fuel-bounded JSON value reader.  A successful result is a genuine parse
whatever the fuel, so "`s` is a JSON document" is `∃ fuel, jparse fuel s = …`. -/
def jparse : Nat → List Char → Option (Json × List Char)
  | 0, _ => none
  | fuel + 1, input =>
    match dropWs input with
    | 'n' :: 'u' :: 'l' :: 'l' :: r => some (.null, r)
    | 't' :: 'r' :: 'u' :: 'e' :: r => some (.bool true, r)
    | 'f' :: 'a' :: 'l' :: 's' :: 'e' :: r => some (.bool false, r)
    | '"' :: r =>
      (match scanStr r with
       | some (body, rest) => some (.str (String.mk body), rest)
       | none => none)
    | '[' :: r =>
      (match dropWs r with
       | ']' :: rest => some (.arr [], rest)
       | _ =>
         match jparseItems fuel r with
         | some (items, rest) => some (.arr items, rest)
         | none => none)
    | '{' :: r =>
      (match dropWs r with
       | '}' :: rest => some (.obj [], rest)
       | _ =>
         match jparseProps fuel r with
         | some (props, rest) => some (.obj props, rest)
         | none => none)
    | _ => none

/-- One-or-more comma-separated array elements, up to and including `]`. -/
def jparseItems : Nat → List Char → Option (List Json × List Char)
  | 0, _ => none
  | fuel + 1, input =>
    match jparse fuel input with
    | none => none
    | some (j, r) =>
      match dropWs r with
      | ',' :: r2 =>
        (match jparseItems fuel r2 with
         | some (items, rest) => some (j :: items, rest)
         | none => none)
      | ']' :: r2 => some ([j], r2)
      | _ => none

/-- One-or-more comma-separated object members, up to and including `}`. -/
def jparseProps : Nat → List Char → Option (List (String × Json) × List Char)
  | 0, _ => none
  | fuel + 1, input =>
    match dropWs input with
    | '"' :: r =>
      (match scanStr r with
       | none => none
       | some (key, r1) =>
         match dropWs r1 with
         | ':' :: r2 =>
           (match jparse fuel r2 with
            | none => none
            | some (v, r3) =>
              match dropWs r3 with
              | ',' :: r4 =>
                (match jparseProps fuel r4 with
                 | some (props, rest) => some ((String.mk key, v) :: props, rest)
                 | none => none)
              | '}' :: r4 => some ([(String.mk key, v)], r4)
              | _ => none)
         | _ => none)
    | _ => none
end

/-! ### The reader inverts the renderer

`jparse_emit` below: parsing a rendered value consumes exactly that value.
This is what lets "the response body is well-formed JSON" be proved for
machine runs over arbitrary row data. -/

/-- Scanning an escaped body recovers it up to the closing quote. -/
theorem scanStr_escBody (s : List Char) : ∀ rest : List Char,
    scanStr (escBody s ++ '"' :: rest) = some (s, rest) := by
  induction s with
  | nil => intro rest; simp [escBody, scanStr]
  | cons c cs ih =>
    intro rest
    by_cases hq : c = '"'
    · subst hq
      simp [escBody, escChar, scanStr, unesc, ih]
    · by_cases hb : c = '\\'
      · subst hb
        simp [escBody, escChar, scanStr, unesc, ih]
      · by_cases hn : c = '\n'
        · subst hn
          simp [escBody, escChar, scanStr, unesc, ih]
        · by_cases ht : c = '\t'
          · subst ht
            simp [escBody, escChar, scanStr, unesc, ih]
          · by_cases hr : c = '\r'
            · subst hr
              simp [escBody, escChar, scanStr, unesc, ih]
            · simp [escBody, escChar, hq, hb, hn, ht, hr, scanStr, ih]

/-- A character fit to open a rendered value: not whitespace and not a
closing bracket or brace. -/
def goodHead (c : Char) : Bool :=
  !(isWsC c) && !(c == ']') && !(c == '}')

/-- Every rendered value starts with a `goodHead` character. -/
theorem emit_headSpec (j : Json) : ∃ c t, j.emit = c :: t ∧ goodHead c = true := by
  cases j with
  | bool b => cases b with
    | false => exact ⟨'f', _, rfl, rfl⟩
    | true => exact ⟨'t', _, rfl, rfl⟩
  | null => exact ⟨'n', _, rfl, rfl⟩
  | str s => exact ⟨'"', _, rfl, rfl⟩
  | arr items => exact ⟨'[', _, rfl, rfl⟩
  | obj props => exact ⟨'{', _, rfl, rfl⟩

/-- Unpacking `goodHead` into the three facts the parser proofs consume. -/
theorem goodHead_split {c : Char} (h : goodHead c = true) :
    isWsC c = false ∧ c ≠ ']' ∧ c ≠ '}' := by
  simp only [goodHead, Bool.and_eq_true, Bool.not_eq_true', beq_eq_false_iff_ne,
    ne_eq] at h
  exact ⟨h.1.1, h.1.2, h.2⟩

/-- The `dropWs` does not touch rendered output. -/
theorem dropWs_emit (j : Json) (x : List Char) :
    dropWs (j.emit ++ x) = j.emit ++ x := by
  obtain ⟨c, t, he, hgood⟩ := emit_headSpec j
  rw [he]
  simp [dropWs, (goodHead_split hgood).1]

mutual
/-- Round trip for a single value: the reader consumes a rendered value
exactly, leaving the rest, given enough fuel. -/
theorem jparse_emit : ∀ (j : Json) (rest : List Char) (fuel : Nat),
    j.emit.length < fuel → jparse fuel (j.emit ++ rest) = some (j, rest)
  | .null, rest, 0, hf => by simp [Json.emit] at hf
  | .null, rest, fuel + 1, _ => by
    simp [Json.emit, jparse, dropWs, isWsC]
  | .bool b, rest, 0, hf => by cases b <;> simp [Json.emit] at hf
  | .bool b, rest, fuel + 1, _ => by
    cases b <;> simp [Json.emit, jparse, dropWs, isWsC]
  | .str s, rest, 0, hf => by simp [Json.emit, quoteStr] at hf
  | .str s, rest, fuel + 1, _ => by
    have harg : (Json.str s).emit ++ rest
        = '"' :: (escBody s.data ++ '"' :: rest) := by
      simp [Json.emit, quoteStr]
    rw [harg]
    simp [jparse, dropWs, isWsC, scanStr_escBody]
  | .arr [], rest, 0, hf => by simp [Json.emit] at hf
  | .arr [], rest, fuel + 1, _ => by
    simp [Json.emit, Json.emitItems, jparse, dropWs, isWsC]
  | .arr (j :: items), rest, 0, hf => by simp [Json.emit] at hf
  | .arr (j :: items), rest, fuel + 1, hf => by
    have harg : (Json.arr (j :: items)).emit ++ rest
        = '[' :: (Json.emitItems (j :: items) ++ ']' :: rest) := by
      simp [Json.emit]
    obtain ⟨c, t, he, hgood⟩ := emit_headSpec j
    obtain ⟨hws, hbr, -⟩ := goodHead_split hgood
    have hcons : Json.emitItems (j :: items) ++ ']' :: rest
        = c :: (t ++ Json.emitItemsTail items ++ ']' :: rest) := by
      simp [Json.emitItems, he]
    have hbound : (Json.emitItems (j :: items)).length + 1 < fuel := by
      simp only [Json.emit, List.length_cons, List.length_append,
        List.length_singleton] at hf
      omega
    have key := jparseItems_emit j items rest fuel hbound
    rw [harg]
    show (match dropWs (Json.emitItems (j :: items) ++ ']' :: rest) with
      | ']' :: rest2 => some (Json.arr [], rest2)
      | _ =>
        match jparseItems fuel (Json.emitItems (j :: items) ++ ']' :: rest) with
        | some (items2, rest2) => some (Json.arr items2, rest2)
        | none => none) = some (Json.arr (j :: items), rest)
    rw [key]
    rw [hcons]
    simp [dropWs, hws, hbr]
  | .obj [], rest, 0, hf => by simp [Json.emit] at hf
  | .obj [], rest, fuel + 1, _ => by
    simp [Json.emit, Json.emitProps, jparse, dropWs, isWsC]
  | .obj (kv :: props), rest, 0, hf => by simp [Json.emit] at hf
  | .obj ((k, v) :: props), rest, fuel + 1, hf => by
    have harg : (Json.obj ((k, v) :: props)).emit ++ rest
        = '{' :: (Json.emitProps ((k, v) :: props) ++ '}' :: rest) := by
      simp [Json.emit]
    have hcons : Json.emitProps ((k, v) :: props) ++ '}' :: rest
        = '"' :: (escBody k.data ++ '"' :: ':'
            :: (v.emit ++ Json.emitPropsTail props ++ '}' :: rest)) := by
      simp [Json.emitProps, quoteStr]
    have hbound : (Json.emitProps ((k, v) :: props)).length + 1 < fuel := by
      simp only [Json.emit, List.length_cons, List.length_append,
        List.length_singleton] at hf
      omega
    have key := jparseProps_emit (k, v) props rest fuel hbound
    rw [harg]
    show (match dropWs (Json.emitProps ((k, v) :: props) ++ '}' :: rest) with
      | '}' :: rest2 => some (Json.obj [], rest2)
      | _ =>
        match jparseProps fuel (Json.emitProps ((k, v) :: props) ++ '}' :: rest) with
        | some (props2, rest2) => some (Json.obj props2, rest2)
        | none => none) = some (Json.obj ((k, v) :: props), rest)
    rw [key]
    rw [hcons]
    simp [dropWs, isWsC]
termination_by j _ _ _ => sizeOf j

/-- Round trip for one-or-more array elements followed by `]`. -/
theorem jparseItems_emit : ∀ (j : Json) (items : List Json) (rest : List Char)
    (fuel : Nat), (Json.emitItems (j :: items)).length + 1 < fuel →
    jparseItems fuel (Json.emitItems (j :: items) ++ ']' :: rest)
      = some (j :: items, rest)
  | j, items, rest, 0, hf => by omega
  | j, [], rest, fuel + 1, hf => by
    have hb : j.emit.length < fuel := by
      simp only [Json.emitItems, Json.emitItemsTail, List.append_nil,
        List.length_append] at hf
      omega
    have hv := jparse_emit j (']' :: rest) fuel hb
    have harg : Json.emitItems [j] ++ ']' :: rest = j.emit ++ ']' :: rest := by
      simp [Json.emitItems, Json.emitItemsTail]
    rw [harg]
    simp [jparseItems, hv, dropWs, isWsC]
  | j, j2 :: items, rest, fuel + 1, hf => by
    simp only [Json.emitItems, Json.emitItemsTail, List.length_append,
      List.length_cons] at hf
    have hb : j.emit.length < fuel := by omega
    have hb2 : (Json.emitItems (j2 :: items)).length + 1 < fuel := by
      simp only [Json.emitItems, List.length_append]
      omega
    have hv := jparse_emit j
      (',' :: (Json.emitItems (j2 :: items) ++ ']' :: rest)) fuel hb
    have key := jparseItems_emit j2 items rest fuel hb2
    have harg : Json.emitItems (j :: j2 :: items) ++ ']' :: rest
        = j.emit ++ ',' :: (Json.emitItems (j2 :: items) ++ ']' :: rest) := by
      simp [Json.emitItems, Json.emitItemsTail]
    rw [harg]
    simp [jparseItems, hv, dropWs, isWsC, key]
termination_by j items _ _ _ => sizeOf j + sizeOf items

/-- Round trip for one-or-more object members followed by `}`. -/
theorem jparseProps_emit : ∀ (kv : String × Json) (props : List (String × Json))
    (rest : List Char) (fuel : Nat),
    (Json.emitProps (kv :: props)).length + 1 < fuel →
    jparseProps fuel (Json.emitProps (kv :: props) ++ '}' :: rest)
      = some (kv :: props, rest)
  | kv, props, rest, 0, hf => by omega
  | (k, v), [], rest, fuel + 1, hf => by
    simp only [Json.emitProps, Json.emitPropsTail, quoteStr, List.append_nil,
      List.length_append, List.length_cons] at hf
    have hb : v.emit.length < fuel := by omega
    have hv := jparse_emit v ('}' :: rest) fuel hb
    have harg : Json.emitProps [(k, v)] ++ '}' :: rest
        = '"' :: (escBody k.data ++ '"' :: ':' :: (v.emit ++ '}' :: rest)) := by
      simp [Json.emitProps, Json.emitPropsTail, quoteStr]
    rw [harg]
    simp [jparseProps, dropWs, isWsC, scanStr_escBody, hv]
  | (k, v), kv2 :: props, rest, fuel + 1, hf => by
    simp only [Json.emitProps, Json.emitPropsTail, quoteStr, List.length_append,
      List.length_cons] at hf
    have hb : v.emit.length < fuel := by omega
    have hb2 : (Json.emitProps (kv2 :: props)).length + 1 < fuel := by
      obtain ⟨k2, v2⟩ := kv2
      simp only [Json.emitProps, quoteStr, List.length_append, List.length_cons]
      simp only [Json.emitPropsTail] at hf
      omega
    have hv := jparse_emit v
      (',' :: (Json.emitProps (kv2 :: props) ++ '}' :: rest)) fuel hb
    have key := jparseProps_emit kv2 props rest fuel hb2
    have harg : Json.emitProps ((k, v) :: kv2 :: props) ++ '}' :: rest
        = '"' :: (escBody k.data ++ '"' :: ':'
            :: (v.emit ++ ',' :: (Json.emitProps (kv2 :: props) ++ '}' :: rest))) := by
      obtain ⟨k2, v2⟩ := kv2
      simp [Json.emitProps, Json.emitPropsTail, quoteStr]
    rw [harg]
    simp [jparseProps, dropWs, isWsC, scanStr_escBody, hv, key]
termination_by kv props _ _ _ => sizeOf kv + sizeOf props
end

/-- The `dropWs` ignores a leading whitespace character. -/
theorem dropWs_ws_cons (c : Char) (hc : isWsC c = true) (s : List Char) :
    dropWs (c :: s) = dropWs s := by
  simp [dropWs, hc]

/-- The reader only looks at its input through `dropWs`. -/
theorem jparse_eq_of_dropWs (fuel : Nat) {s1 s2 : List Char}
    (h : dropWs s1 = dropWs s2) : jparse (fuel + 1) s1 = jparse (fuel + 1) s2 := by
  simp only [jparse, h]

/-- One definitional unfolding of `jparse` at successor fuel. -/
theorem jparse_step (fuel : Nat) (input : List Char) :
    jparse (fuel + 1) input
      = (match dropWs input with
        | 'n' :: 'u' :: 'l' :: 'l' :: r => some (.null, r)
        | 't' :: 'r' :: 'u' :: 'e' :: r => some (.bool true, r)
        | 'f' :: 'a' :: 'l' :: 's' :: 'e' :: r => some (.bool false, r)
        | '"' :: r =>
          (match scanStr r with
           | some (body, rest) => some (.str (String.mk body), rest)
           | none => none)
        | '[' :: r =>
          (match dropWs r with
           | ']' :: rest => some (.arr [], rest)
           | _ =>
             match jparseItems fuel r with
             | some (items, rest) => some (.arr items, rest)
             | none => none)
        | '{' :: r =>
          (match dropWs r with
           | '}' :: rest => some (.obj [], rest)
           | _ =>
             match jparseProps fuel r with
             | some (props, rest) => some (.obj props, rest)
             | none => none)
        | _ => none) := rfl

/-- One definitional unfolding of `jparseProps` at successor fuel. -/
theorem jparseProps_step (fuel : Nat) (input : List Char) :
    jparseProps (fuel + 1) input
      = (match dropWs input with
        | '"' :: r =>
          (match scanStr r with
           | none => none
           | some (key, r1) =>
             match dropWs r1 with
             | ':' :: r2 =>
               (match jparse fuel r2 with
                | none => none
                | some (v, r3) =>
                  match dropWs r3 with
                  | ',' :: r4 =>
                    (match jparseProps fuel r4 with
                     | some (props, rest) => some ((String.mk key, v) :: props, rest)
                     | none => none)
                  | '}' :: r4 => some ([(String.mk key, v)], r4)
                  | _ => none)
             | _ => none)
        | _ => none) := rfl

/-- The exact shape of the wire bytes shared by every well-closed streamed
response: the literal prefix `{"data": `, a JSON array, then the metadata
members spliced in after a comma, then the closing brace.  `streamRecords`
produces the array as `[` + rows + `]`; `streamRecords_FOR_JSON_PATH` receives
it pre-rendered from SQL Server. -/
def respDoc (items : List Json) (props : List (String × Json)) : List Char :=
  '{' :: '"' :: 'd' :: 'a' :: 't' :: 'a' :: '"' :: ':' :: ' '
    :: (Json.emit (.arr items) ++ ',' :: (Json.emitProps props ++ ['}']))

/-- Scanning the literal key `data` out of the response prefix. -/
theorem scanStr_dataKey (r : List Char) :
    scanStr ('d' :: 'a' :: 't' :: 'a' :: '"' :: r) = some (['d', 'a', 't', 'a'], r) := by
  simp [scanStr]

/-- A well-closed streamed response parses, in full, to the object with the
`data` array first and the metadata members after it. -/
theorem jparse_respDoc (items : List Json) (props : List (String × Json))
    (fuel : Nat) (hp : props ≠ [])
    (hf : (Json.emit (Json.arr items)).length + (Json.emitProps props).length + 4 ≤ fuel) :
    jparse fuel (respDoc items props)
      = some (Json.obj (("data", Json.arr items) :: props), []) := by
  obtain ⟨kv, tail, rfl⟩ : ∃ kv tail, props = kv :: tail := by
    cases props with
    | nil => exact absurd rfl hp
    | cons a b => exact ⟨a, b, rfl⟩
  obtain ⟨f1, rfl⟩ : ∃ f1, fuel = f1 + 1 + 1 + 1 := ⟨fuel - 3, by omega⟩
  have hval : jparse (f1 + 1)
      (Json.emit (Json.arr items) ++ ',' :: (Json.emitProps (kv :: tail) ++ ['}']))
      = some (Json.arr items, ',' :: (Json.emitProps (kv :: tail) ++ ['}'])) := by
    refine jparse_emit _ _ _ ?_
    omega
  have hws : jparse (f1 + 1)
      (' ' :: (Json.emit (Json.arr items) ++ ',' :: (Json.emitProps (kv :: tail) ++ ['}'])))
      = some (Json.arr items, ',' :: (Json.emitProps (kv :: tail) ++ ['}'])) := by
    rw [jparse_eq_of_dropWs f1 (dropWs_ws_cons ' ' (by decide) _), hval]
  have hprops : jparseProps (f1 + 1) (Json.emitProps (kv :: tail) ++ '}' :: [])
      = some (kv :: tail, []) := by
    refine jparseProps_emit kv tail [] (f1 + 1) ?_
    omega
  show jparse (f1 + 1 + 1 + 1) ('{' :: ('"' :: 'd' :: 'a' :: 't' :: 'a' :: '"' :: ':' :: ' '
    :: (Json.emit (.arr items) ++ ',' :: (Json.emitProps (kv :: tail) ++ ['}'])))) = _
  have hd0 : dropWs ('"' :: 'd' :: 'a' :: 't' :: 'a' :: '"' :: ':' :: ' '
      :: (Json.emit (.arr items) ++ ',' :: (Json.emitProps (kv :: tail) ++ ['}'])))
    = '"' :: 'd' :: 'a' :: 't' :: 'a' :: '"' :: ':' :: ' '
      :: (Json.emit (.arr items) ++ ',' :: (Json.emitProps (kv :: tail) ++ ['}'])) := by
    simp [dropWs, isWsC]
  have hd1 : dropWs (':' :: ' '
      :: (Json.emit (.arr items) ++ ',' :: (Json.emitProps (kv :: tail) ++ ['}'])))
    = ':' :: ' '
      :: (Json.emit (.arr items) ++ ',' :: (Json.emitProps (kv :: tail) ++ ['}'])) := by
    simp [dropWs, isWsC]
  have hd2 : dropWs (',' :: (Json.emitProps (kv :: tail) ++ ['}']))
      = ',' :: (Json.emitProps (kv :: tail) ++ ['}']) := by
    simp [dropWs, isWsC]
  have hkey : jparseProps (f1 + 1 + 1)
      ('"' :: 'd' :: 'a' :: 't' :: 'a' :: '"' :: ':' :: ' '
        :: (Json.emit (.arr items) ++ ',' :: (Json.emitProps (kv :: tail) ++ ['}'])))
      = some (("data", Json.arr items) :: kv :: tail, []) := by
    rw [jparseProps_step]
    simp only [hd0, scanStr_dataKey, hd1, hws, hd2, hprops]
  have hd3 : dropWs ('{' :: ('"' :: 'd' :: 'a' :: 't' :: 'a' :: '"' :: ':' :: ' '
      :: (Json.emit (.arr items) ++ ',' :: (Json.emitProps (kv :: tail) ++ ['}']))))
    = '{' :: ('"' :: 'd' :: 'a' :: 't' :: 'a' :: '"' :: ':' :: ' '
      :: (Json.emit (.arr items) ++ ',' :: (Json.emitProps (kv :: tail) ++ ['}']))) := by
    simp [dropWs, isWsC]
  rw [jparse_step]
  simp only [hd3, hd0, hkey]
  rfl
/-- First-match association lookup among an object's members. -/
def lookupProp (props : List (String × Json)) (key : String) : Option Json :=
  match props with
  | [] => none
  | (k, v) :: rest => if k = key then some v else lookupProp rest key

/-- Property: the bytes are one complete JSON document whose top-level object
carries a `data` array and a `success` boolean — the well-formedness the spec
demands of every terminated streaming response. -/
def GoodStreamBody (wire : List Char) : Prop :=
  ∃ fuel props items b,
    jparse fuel wire = some (Json.obj props, [])
      ∧ lookupProp props "data" = some (Json.arr items)
      ∧ lookupProp props "success" = some (Json.bool b)

/-! ## `src/utils/json.js` -/

/-- JavaScript truthiness on the JSON values that reach `createMetadata`
(`null`/`undefined` and the empty string are falsy; objects and arrays are
always truthy). -/
def Json.truthy : Json → Bool
  | .null => false
  | .bool b => b
  | .str s => !(s = "")
  | .arr _ => true
  | .obj _ => true

/-- A JavaScript value about to be serialized for the stream: either
`JSON.stringify` succeeds and renders `val j`, or it throws
(circular references, BigInt, …), which only the `typeof` tag survives. -/
inductive JsData where
  | val (j : Json)
  | unserializable (typeofTag : String)

/-- The `safeJSONStringify` (src/utils/json.js:22-33): stringify, and on failure
return the fixed fallback descriptor — never an exception, always a JSON
rendering. -/
def safeJSONStringify : JsData → List Char
  | .val j => j.emit
  | .unserializable t =>
    (Json.obj [("error", .str "Data serialization failed"),
               ("originalType", .str t)]).emit

/-- The JSON value `safeJSONStringify` renders for a given input. -/
def stringifiedValue : JsData → Json
  | .val j => j
  | .unserializable t =>
    Json.obj [("error", .str "Data serialization failed"), ("originalType", .str t)]

/-- The `createMetadata` (src/utils/json.js): `{success, ...(errorMessage && {error}),
...(result && {result})}` — the error/result members are spliced in only when
the corresponding argument is truthy. -/
def createMetadata (success : Bool) (errorMessage : Option String)
    (result : Option Json) : List (String × Json) :=
  [("success", Json.bool success)]
    ++ (match errorMessage with
        | some m => if m = "" then [] else [("error", Json.str m)]
        | none => [])
    ++ (match result with
        | some r => if r.truthy then [("result", r)] else []
        | none => [])

/-- The `createStreamingHeaders` (src/utils/json.js): the fixed chunked-response
headers. -/
def createStreamingHeaders : List (String × String) :=
  [("Content-Type", "application/json"),
   ("Transfer-Encoding", "chunked"),
   ("Cache-Control", "no-cache")]

/-! ## The HTTP response object

Node's `http.ServerResponse`, restricted to what the controllers use.  A write
or end attempted after the response has ended delivers no bytes (the stream
layer rejects it with `ERR_STREAM_WRITE_AFTER_END`); the model counts such
attempts in `lateOps` and counts every `end()` call in `endCalls`. -/

structure Resp where
  headersSent : Bool := false
  status : Option Nat := none
  headers : List (String × String) := []
  wire : List Char := []
  ended : Bool := false
  endCalls : Nat := 0
  lateOps : Nat := 0

/-- The `res.write(chunk)` — appends to the wire unless the response has ended. -/
def Resp.write (res : Resp) (chunk : List Char) : Resp :=
  if res.ended then { res with lateOps := res.lateOps + 1 }
  else { res with wire := res.wire ++ chunk }

/-- The `res.end()`. -/
def Resp.endResponse (res : Resp) : Resp :=
  if res.ended then { res with endCalls := res.endCalls + 1, lateOps := res.lateOps + 1 }
  else { res with ended := true, endCalls := res.endCalls + 1 }

/-- The `res.writeHead(status, headers)`. -/
def Resp.writeHead (res : Resp) (status : Nat) (hs : List (String × String)) : Resp :=
  { res with headersSent := true, status := some status, headers := hs }

/-! ## `src/controllers/apiController.js` — the streaming state machine -/

/-- The closure-captured `streamingState` of both streaming controllers. -/
structure StreamingState where
  isFirstRow : Bool := true
  jsonStructureStarted : Bool := false
  recordsetStarted : Bool := false
  dataStarted : Bool := false

/-- The `createSafeEndJSON` (apiController.js:148-173): close the data structure
according to the current state, splice the metadata members into the already
open object (dropping the metadata's own `{`), and end the response.  Its
`try/catch` guards against a throwing `res.write`; string writes do not throw
in Node, so the catch arm is unreachable here. -/
def createSafeEndJSON (state : StreamingState) (res : Resp) (success : Bool)
    (errorMessage : Option String) (result : Option Json) : Resp :=
  let res1 :=
    if state.recordsetStarted then res.write [']']
    else if state.jsonStructureStarted && !state.dataStarted then res.write ['[', ']']
    else res
  let metadata := Json.obj (createMetadata success errorMessage result)
  let res2 :=
    if state.jsonStructureStarted then res1.write (',' :: metadata.emit.drop 1)
    else res1.write metadata.emit
  res2.endResponse

/-- Per-request session: the streaming state, the response, and the closure
state of `createStreamingRequest` (`requestCompleted`, the timeout handle,
whether `request.cancel()` was issued), plus whether the handler escaped to
Express via `next(new DatabaseError(...))`. -/
structure Session where
  state : StreamingState := {}
  res : Resp := {}
  requestCompleted : Bool := false
  timeoutCleared : Bool := false
  canceled : Bool := false
  nextCalledWith : Option String := none

/-- The `markCompleted` from `createStreamingRequest`: set the completion flag and
clear the pending timeout. -/
def markCompleted (s : Session) : Session :=
  { s with requestCompleted := true, timeoutCleared := true }

/-- The characters of the literal `{"data": [` written by `streamRecords` on
its `recordset` event. -/
def dataPrefixManual : List Char :=
  ['{', '"', 'd', 'a', 't', 'a', '"', ':', ' ', '[']

/-- The characters of the literal `{"data": ` written by
`streamRecords_FOR_JSON_PATH` on its `recordset` event. -/
def dataPrefixFJP : List Char :=
  ['{', '"', 'd', 'a', 't', 'a', '"', ':', ' ']

/-- The driver/timer events a streaming request can observe.  A client
disconnect issues `request.cancel()`, after which the driver reports through
`errorEvent` — so disconnection is covered by the `errorEvent` runs. -/
inductive StreamEvent where
  | recordset (headerWriteOk : Bool)
  | rowEvent (r : JsData)
  | rowFragment (fragment : String)
  | errorEvent (message : String)
  | doneEvent (result : Option Json)
  | timeoutFires

/-- One event step of `streamRecords` (apiController.js:330-472).
`rowFragment` events belong to the FOR JSON PATH controller and do not occur
in `streamRecords` runs (the step ignores them). -/
def streamRecordsStep (s : Session) : StreamEvent → Session
  | .recordset ok =>
    if ok then
      let res := (s.res.writeHead 200 createStreamingHeaders).write dataPrefixManual
      { s with res := res,
               state := { s.state with jsonStructureStarted := true, recordsetStarted := true } }
    else
      -- `res.writeHead` threw before sending anything: the catch forwards a
      -- DatabaseError to `next()` when headers are still unsent.
      if !s.res.headersSent then { s with nextCalledWith := some "header setup" } else s
  | .rowEvent r =>
    let res := if !s.state.isFirstRow then s.res.write [','] else s.res
    let res := res.write (safeJSONStringify r)
    { s with res := res,
             state := { s.state with isFirstRow := false, dataStarted := true } }
  | .rowFragment _ => s
  | .errorEvent message =>
    let s1 := markCompleted s
    let shown := if message = "" then "Database streaming error" else message
    if s1.res.headersSent then
      { s1 with res := createSafeEndJSON s1.state s1.res false (some shown) none }
    else { s1 with nextCalledWith := some message }
  | .doneEvent result =>
    let s1 := markCompleted s
    { s1 with res := createSafeEndJSON s1.state s1.res true none result }
  | .timeoutFires =>
    if s.requestCompleted then s
    else
      let s1 := { s with canceled := true }
      if s1.res.headersSent && !s1.res.ended then
        { s1 with res := createSafeEndJSON s1.state s1.res false (some "Query timeout") none }
      else s1

/-- One event step of `streamRecords_FOR_JSON_PATH` (apiController.js:500-626):
the `recordset` handler writes `{"data": ` without opening a bracket and never
sets `recordsetStarted`; the row handler writes the pre-rendered fragment
`Object.values(row)[0]` verbatim when it is truthy.  `rowEvent`s belong to the
manual controller and do not occur here. -/
def streamRecordsFJPStep (s : Session) : StreamEvent → Session
  | .recordset ok =>
    if ok then
      let res := (s.res.writeHead 200 createStreamingHeaders).write dataPrefixFJP
      { s with res := res,
               state := { s.state with jsonStructureStarted := true } }
    else
      if !s.res.headersSent then { s with nextCalledWith := some "header setup" } else s
  | .rowEvent _ => s
  | .rowFragment frag =>
    if frag = "" then s
    else
      { s with state := { s.state with dataStarted := true },
               res := s.res.write frag.data }
  | .errorEvent message =>
    let s1 := markCompleted s
    let shown := if message = "" then "Database streaming error" else message
    if s1.res.headersSent then
      { s1 with res := createSafeEndJSON s1.state s1.res false (some shown) none }
    else { s1 with nextCalledWith := some message }
  | .doneEvent result =>
    let s1 := markCompleted s
    { s1 with res := createSafeEndJSON s1.state s1.res true none result }
  | .timeoutFires =>
    if s.requestCompleted then s
    else
      let s1 := { s with canceled := true }
      if s1.res.headersSent && !s1.res.ended then
        { s1 with res := createSafeEndJSON s1.state s1.res false (some "Query timeout") none }
      else s1

/-- Run `streamRecords` through a list of events from a fresh session. -/
def runStreamRecords (evs : List StreamEvent) : Session :=
  evs.foldl streamRecordsStep {}

/-- Run `streamRecords_FOR_JSON_PATH` through a list of events. -/
def runStreamRecordsFJP (evs : List StreamEvent) : Session :=
  evs.foldl streamRecordsFJPStep {}

/-! ### Characterizing the runs -/

/-- The `row` events for a list of driver rows. -/
def rowEvents (rows : List JsData) : List StreamEvent :=
  rows.map .rowEvent

/-- The `safeJSONStringify` always emits the rendering of `stringifiedValue`. -/
theorem safeJSONStringify_eq_emit (r : JsData) :
    safeJSONStringify r = (stringifiedValue r).emit := by
  cases r <;> rfl

/-- The session right after a successful `recordset` event of `streamRecords`:
headers sent, `{"data": [` on the wire, framing flags set. -/
def afterHeaders : Session :=
  { state := { isFirstRow := true, jsonStructureStarted := true,
               recordsetStarted := true, dataStarted := false },
    res := { headersSent := true, status := some 200,
             headers := createStreamingHeaders, wire := dataPrefixManual } }

theorem step_recordset : streamRecordsStep {} (.recordset true) = afterHeaders := rfl

/-- Rows after the first: each one writes `,` then its serialization, and the
framing flags are already in their final values. -/
theorem foldRows_tail (rows : List JsData) : ∀ s : Session,
    s.state.isFirstRow = false → s.state.dataStarted = true → s.res.ended = false →
    List.foldl streamRecordsStep s (rowEvents rows)
      = { s with res := { s.res with
            wire := s.res.wire ++ Json.emitItemsTail (rows.map stringifiedValue) } } := by
  induction rows with
  | nil =>
    intro s _ _ _
    simp [rowEvents, Json.emitItemsTail]
  | cons r rest ih =>
    intro s h1 h2 h3
    obtain ⟨⟨fir, jss, rss, ds⟩, res, rc, tc, ca, nx⟩ := s
    simp only at h1 h2 h3
    subst h1 h2
    rw [show rowEvents (r :: rest) = .rowEvent r :: rowEvents rest from rfl, List.foldl_cons]
    have hstep : streamRecordsStep
        ⟨⟨false, jss, rss, true⟩, res, rc, tc, ca, nx⟩ (.rowEvent r)
        = ⟨⟨false, jss, rss, true⟩,
           { res with wire := res.wire ++ (',' :: safeJSONStringify r) },
           rc, tc, ca, nx⟩ := by
      simp [streamRecordsStep, Resp.write, h3]
    rw [hstep, ih _ rfl rfl (by simp [h3])]
    simp [Json.emitItemsTail, safeJSONStringify_eq_emit]

/-- The whole row phase of `streamRecords`, from the fresh-stream state: the
wire grows by exactly the comma-separated serializations, each failing row
replaced in place by the `safeJSONStringify` fallback descriptor. -/
theorem foldRows_spec (rows : List JsData) (s : Session)
    (h1 : s.state.isFirstRow = true) (h2 : s.state.dataStarted = false)
    (h3 : s.res.ended = false) :
    List.foldl streamRecordsStep s (rowEvents rows)
      = (match rows with
        | [] => s
        | _ :: _ =>
          { s with
            state := { s.state with isFirstRow := false, dataStarted := true },
            res := { s.res with
              wire := s.res.wire ++ Json.emitItems (rows.map stringifiedValue) } }) := by
  cases rows with
  | nil => simp [rowEvents]
  | cons r rest =>
    obtain ⟨⟨fir, jss, rss, ds⟩, res, rc, tc, ca, nx⟩ := s
    simp only at h1 h2 h3
    subst h1 h2
    rw [show rowEvents (r :: rest) = .rowEvent r :: rowEvents rest from rfl,
 List.foldl_cons]
    have hstep : streamRecordsStep
        ⟨⟨true, jss, rss, false⟩, res, rc, tc, ca, nx⟩ (.rowEvent r)
        = ⟨⟨false, jss, rss, true⟩,
           { res with wire := res.wire ++ safeJSONStringify r },
           rc, tc, ca, nx⟩ := by
      simp [streamRecordsStep, Resp.write, h3]
    rw [hstep, foldRows_tail rest _ rfl rfl (by simp [h3])]
    simp [Json.emitItems, safeJSONStringify_eq_emit]

/-- The `createMetadata` always leads with the `success` member. -/
theorem createMetadata_cons (success : Bool) (errorMessage : Option String)
    (result : Option Json) :
    ∃ tl, createMetadata success errorMessage result
      = ("success", Json.bool success) :: tl :=
  ⟨(match errorMessage with
     | some m => if m = "" then [] else [("error", Json.str m)]
     | none => [])
    ++ (match result with
        | some r => if r.truthy then [("result", r)] else []
        | none => []), by simp [createMetadata]⟩

/-- The `createSafeEndJSON` on a live response whose array is open: close the
array, splice the metadata, end — one `end()`, nothing after it. -/
theorem safeEnd_live (st : StreamingState) (res : Resp) (success : Bool)
    (errMsg : Option String) (result : Option Json)
    (hrss : st.recordsetStarted = true) (hjss : st.jsonStructureStarted = true)
    (hend : res.ended = false) :
    createSafeEndJSON st res success errMsg result
      = { res with
          wire := res.wire
            ++ ']' :: ',' :: (Json.emitProps (createMetadata success errMsg result) ++ ['}']),
          ended := true, endCalls := res.endCalls + 1 } := by
  have hemit : (Json.obj (createMetadata success errMsg result)).emit
      = '{' :: (Json.emitProps (createMetadata success errMsg result) ++ ['}']) := by
    simp [Json.emit]
  simp [createSafeEndJSON, hrss, hjss, hemit, Resp.write, Resp.endResponse, hend]

/-- The `createSafeEndJSON` invoked again after the response has already ended (the
timeout-then-driver-error sequence): the wire is untouched, but two writes and
one further `end()` are attempted against the finished stream. -/
theorem safeEnd_dead (st : StreamingState) (res : Resp) (success : Bool)
    (errMsg : Option String) (result : Option Json)
    (hrss : st.recordsetStarted = true) (hend : res.ended = true) :
    createSafeEndJSON st res success errMsg result
      = { res with lateOps := res.lateOps + 3, endCalls := res.endCalls + 1 } := by
  simp [createSafeEndJSON, hrss, Resp.write, Resp.endResponse, hend]

/-- The driver-visible terminations of one streaming request that the spec
enumerates: normal completion, a mid-stream driver error (which also covers
a client disconnect, whose `request.cancel()` surfaces as a driver error),
the stream timeout, and the timeout followed by the canceled driver's own
error event. -/
inductive TerminalEv where
  | completes (result : Option Json)
  | failsMidStream (message : String)
  | timesOut
  | timesOutThenErrors (message : String)

/-- The events a terminal outcome delivers. -/
def terminalEvents : TerminalEv → List StreamEvent
  | .completes r => [.doneEvent r]
  | .failsMidStream m => [.errorEvent m]
  | .timesOut => [.timeoutFires]
  | .timesOutThenErrors m => [.timeoutFires, .errorEvent m]

/-- The metadata members `createSafeEndJSON` appends for a terminal outcome
(for `timesOutThenErrors` the ones from the timeout, which are the only ones
that reach the wire). -/
def terminalMetadata : TerminalEv → List (String × Json)
  | .completes r => createMetadata true none r
  | .failsMidStream m =>
    createMetadata false (some (if m = "" then "Database streaming error" else m)) none
  | .timesOut => createMetadata false (some "Query timeout") none
  | .timesOutThenErrors _ => createMetadata false (some "Query timeout") none

/-- A whole `streamRecords` request: successful header setup, the driver's
rows in order, then one terminal outcome. -/
def manualRun (rows : List JsData) (t : TerminalEv) : Session :=
  runStreamRecords (.recordset true :: (rowEvents rows ++ terminalEvents t))

/-- How many times `res.end()` runs in a `streamRecords` request. -/
def endCallsOf : TerminalEv → Nat
  | .timesOutThenErrors _ => 2
  | _ => 1

/-- How many writes/ends are attempted after the response already ended. -/
def lateOpsOf : TerminalEv → Nat
  | .timesOutThenErrors _ => 3
  | _ => 0

/-- Full characterization of a `streamRecords` request: the wire always holds
exactly the well-closed response document over the serialized rows and the
terminal's metadata, the response always ends, and the number of `end()` calls
and of post-end operations depends only on the terminal outcome. -/
theorem manualRun_spec (rows : List JsData) (t : TerminalEv) :
    (manualRun rows t).res.wire
        = respDoc (rows.map stringifiedValue) (terminalMetadata t)
      ∧ (manualRun rows t).res.ended = true
      ∧ (manualRun rows t).res.endCalls = endCallsOf t
      ∧ (manualRun rows t).res.lateOps = lateOpsOf t
      ∧ (manualRun rows t).nextCalledWith = none := by
  have hrun : manualRun rows t
      = List.foldl streamRecordsStep
          (List.foldl streamRecordsStep afterHeaders (rowEvents rows))
          (terminalEvents t) := by
    simp [manualRun, runStreamRecords, List.foldl_cons, List.foldl_append, step_recordset]
  have hrows := foldRows_spec rows afterHeaders rfl rfl rfl
  cases rows with
  | nil =>
    simp only at hrows
    rw [hrun, hrows]
    cases t <;>
      simp [terminalEvents, List.foldl_cons, streamRecordsStep, markCompleted,
        afterHeaders, createSafeEndJSON, Resp.write, Resp.endResponse,
        terminalMetadata, respDoc, dataPrefixManual, Json.emit, Json.emitItems,
        endCallsOf, lateOpsOf]
  | cons r rest =>
    simp only at hrows
    rw [hrun, hrows]
    cases t <;>
      simp [terminalEvents, List.foldl_cons, streamRecordsStep, markCompleted,
        afterHeaders, createSafeEndJSON, Resp.write, Resp.endResponse,
        terminalMetadata, respDoc, dataPrefixManual, Json.emit, Json.emitItems,
        endCallsOf, lateOpsOf]

/-- Every well-closed response document is one complete JSON object carrying
the `data` array and the `success` boolean. -/
theorem goodStreamBody_respDoc (items : List Json) (success : Bool)
    (errMsg : Option String) (result : Option Json) :
    GoodStreamBody (respDoc items (createMetadata success errMsg result)) := by
  obtain ⟨tl, hmeta⟩ := createMetadata_cons success errMsg result
  refine ⟨(Json.emit (Json.arr items)).length
      + (Json.emitProps (createMetadata success errMsg result)).length + 4,
    ("data", Json.arr items) :: createMetadata success errMsg result,
    items, success, ?_, ?_, ?_⟩
  · exact jparse_respDoc _ _ _ (by rw [hmeta]; exact List.cons_ne_nil _ _) (by omega)
  · simp [lookupProp]
  · rw [hmeta]
    simp only [lookupProp]
    rw [if_neg (by decide)]
    simp

/-! ### Characterizing the FOR JSON PATH runs -/

/-- The `row` events of the FOR JSON PATH controller: one pre-rendered
fragment per driver row. -/
def fragmentEvents (frags : List String) : List StreamEvent :=
  frags.map .rowFragment

/-- A whole `streamRecords_FOR_JSON_PATH` request. -/
def fjpRun (frags : List String) (t : TerminalEv) : Session :=
  runStreamRecordsFJP (.recordset true :: (fragmentEvents frags ++ terminalEvents t))

/-- The concatenated characters of a fragment sequence. -/
def fragsChars : List String → List Char
  | [] => []
  | f :: rest => f.data ++ fragsChars rest

/-- Whether any fragment is non-empty (= truthy, = sets `dataStarted`). -/
def anyNonEmpty : List String → Bool
  | [] => false
  | f :: rest => if f = "" then anyNonEmpty rest else true

/-- The session right after a successful `recordset` event of the FOR JSON
PATH controller: like `afterHeaders`, but no `[` is written and
`recordsetStarted` stays false. -/
def afterHeadersFJP : Session :=
  { state := { isFirstRow := true, jsonStructureStarted := true,
               recordsetStarted := false, dataStarted := false },
    res := { headersSent := true, status := some 200,
             headers := createStreamingHeaders, wire := dataPrefixFJP } }

theorem stepFJP_recordset : streamRecordsFJPStep {} (.recordset true) = afterHeadersFJP := rfl

/-- The fragment phase: the wire grows by the concatenation of the truthy
fragments (which is the concatenation of all of them), and `dataStarted`
records whether any fragment was truthy. -/
theorem foldFrags (frags : List String) : ∀ s : Session, s.res.ended = false →
    List.foldl streamRecordsFJPStep s (fragmentEvents frags)
      = { s with
          state := { s.state with
            dataStarted := s.state.dataStarted || anyNonEmpty frags },
          res := { s.res with wire := s.res.wire ++ fragsChars frags } } := by
  induction frags with
  | nil =>
    intro s _
    simp [fragmentEvents, fragsChars, anyNonEmpty]
  | cons f rest ih =>
    intro s h3
    obtain ⟨⟨fir, jss, rss, ds⟩, res, rc, tc, ca, nx⟩ := s
    simp only at h3
    rw [show fragmentEvents (f :: rest) = .rowFragment f :: fragmentEvents rest from rfl,
      List.foldl_cons]
    by_cases hf : f = ""
    · subst hf
      rw [show streamRecordsFJPStep ⟨⟨fir, jss, rss, ds⟩, res, rc, tc, ca, nx⟩
          (.rowFragment "") = ⟨⟨fir, jss, rss, ds⟩, res, rc, tc, ca, nx⟩ from rfl]
      rw [ih _ h3]
      simp [fragsChars, anyNonEmpty]
    · have hstep : streamRecordsFJPStep ⟨⟨fir, jss, rss, ds⟩, res, rc, tc, ca, nx⟩
          (.rowFragment f)
          = ⟨⟨fir, jss, rss, true⟩,
             { res with wire := res.wire ++ f.data }, rc, tc, ca, nx⟩ := by
        simp [streamRecordsFJPStep, hf, Resp.write, h3]
      rw [hstep, ih _ (by simp [h3])]
      simp [fragsChars, anyNonEmpty, hf]

/-- If no fragment is truthy, nothing reached the wire. -/
theorem fragsChars_of_not_any (frags : List String)
    (h : anyNonEmpty frags = false) : fragsChars frags = [] := by
  induction frags with
  | nil => simp [fragsChars]
  | cons f rest ih =>
    by_cases hf : f = ""
    · subst hf
      simp only [anyNonEmpty, if_pos rfl] at h
      simp [fragsChars, ih h]
    · simp [anyNonEmpty, hf] at h

/-- A FOR JSON PATH request that runs to normal completion with the driver
having delivered the complete rendered array: the wire is the well-closed
response document, ended exactly once. -/
theorem fjpRun_done_spec (frags : List String) (items : List Json)
    (r : Option Json) (hjoin : fragsChars frags = (Json.arr items).emit) :
    (fjpRun frags (.completes r)).res.wire
        = respDoc items (createMetadata true none r)
      ∧ (fjpRun frags (.completes r)).res.ended = true
      ∧ (fjpRun frags (.completes r)).res.endCalls = 1
      ∧ (fjpRun frags (.completes r)).res.lateOps = 0 := by
  have hne : anyNonEmpty frags = true := by
    by_contra h
    have h0 : anyNonEmpty frags = false := by
      cases hx : anyNonEmpty frags
      · rfl
      · exact absurd hx h
    have := fragsChars_of_not_any frags h0
    rw [hjoin] at this
    simp [Json.emit] at this
  have hrun : fjpRun frags (.completes r)
      = List.foldl streamRecordsFJPStep
          (List.foldl streamRecordsFJPStep afterHeadersFJP (fragmentEvents frags))
          [.doneEvent r] := by
    simp [fjpRun, runStreamRecordsFJP, List.foldl_cons, List.foldl_append,
      stepFJP_recordset, terminalEvents]
  rw [hrun, foldFrags frags afterHeadersFJP rfl]
  simp only [afterHeadersFJP, hne, hjoin]
  simp [List.foldl_cons, streamRecordsFJPStep, markCompleted, createSafeEndJSON,
    Resp.write, Resp.endResponse, respDoc, dataPrefixFJP, Json.emit]

/-- A FOR JSON PATH request during which no fragment reached the wire (for
example a zero-row result, whose `FOR JSON PATH` query produces no row events
at all): whatever the terminal outcome, `createSafeEndJSON` writes the `[]`
placeholder and the wire is the well-closed empty-data document. -/
theorem fjpRun_nodata_spec (frags : List String) (t : TerminalEv)
    (hna : anyNonEmpty frags = false) :
    (fjpRun frags t).res.wire = respDoc [] (terminalMetadata t)
      ∧ (fjpRun frags t).res.ended = true
      ∧ (fjpRun frags t).res.endCalls = endCallsOf t
      ∧ (fjpRun frags t).res.lateOps = lateOpsOf t := by
  have hrun : fjpRun frags t
      = List.foldl streamRecordsFJPStep
          (List.foldl streamRecordsFJPStep afterHeadersFJP (fragmentEvents frags))
          (terminalEvents t) := by
    simp [fjpRun, runStreamRecordsFJP, List.foldl_cons, List.foldl_append,
      stepFJP_recordset]
  rw [hrun, foldFrags frags afterHeadersFJP rfl]
  simp only [afterHeadersFJP, hna, fragsChars_of_not_any frags hna]
  cases t <;>
    simp [terminalEvents, List.foldl_cons, streamRecordsFJPStep, markCompleted,
      createSafeEndJSON, Resp.write, Resp.endResponse, terminalMetadata,
      respDoc, dataPrefixFJP, Json.emit, Json.emitItems, endCallsOf, lateOpsOf]

/-! ## `src/services/database.js` — the pool module

Module state: `isShuttingDown`, `pool`, `poolConnect`.  Pools and promises are
identified by allocation order.  JavaScript's async-function semantics are
modelled explicitly: the initialization IIFE runs synchronously up to
`await pool.connect()` (or to a synchronous throw), returns a promise, and
only then does the enclosing `poolConnect = (...)()` assignment store that
promise. -/

/-- A promise's settlement state. -/
inductive PromiseState where
  | pending
  | resolved
  | rejected (message : String)
deriving DecidableEq

/-- The module-level mutable state of `database.js`, plus instrumentation:
`connectStarts` counts how many `pool.connect()` sequences were ever started,
`poolsCreated` numbers the `new mssql.ConnectionPool(...)` objects. -/
structure PoolModule where
  isShuttingDown : Bool := false
  pool : Option Nat := none
  poolConnect : Option Nat := none
  promises : List PromiseState := []
  connectStarts : Nat := 0
  poolsCreated : Nat := 0
deriving DecidableEq

/-- What one `getConnectionPool()` call does synchronously: either throw
(shutdown guard) or suspend awaiting a promise. -/
inductive AcquireOutcome where
  | threw (message : String)
  | awaits (pid : Nat)
deriving DecidableEq

/-- Environment: `process.env`. -/
def Env := String → Option String

/-- The required variables checked by `validateEnvironment`. -/
def requiredEnv : List String := ["DB_USER", "DB_PASSWORD", "DB_HOST", "DB_NAME"]

/-- JavaScript truthiness of `process.env[key]` (absent and `""` are falsy). -/
def envTruthy (env : Env) (key : String) : Bool :=
  match env key with
  | none => false
  | some v => !(v = "")

/-- The variables `validateEnvironment` finds missing. -/
def missingEnv (env : Env) : List String :=
  requiredEnv.filter (fun k => !envTruthy env k)

/-- The `validateEnvironment` (database.js:13-21). -/
def validateEnvironment (env : Env) : Except String Unit :=
  if (missingEnv env).length > 0 then
    .error ("Missing required environment variables: "
      ++ String.intercalate ", " (missingEnv env))
  else .ok ()

def isDigitC (c : Char) : Bool := '0' ≤ c && c ≤ '9'

/-- Leading decimal digits and the rest. -/
def splitDigits : List Char → List Char × List Char
  | [] => ([], [])
  | c :: cs =>
    if isDigitC c then
      let (ds, r) := splitDigits cs
      (c :: ds, r)
    else ([], c :: cs)

def digitsToNat : List Char → Nat → Nat
  | [], acc => acc
  | c :: cs, acc => digitsToNat cs (acc * 10 + (c.toNat - '0'.toNat))

/-- JavaScript's `parseInt` on the strings `getDbConfig` feeds it: optional
sign then leading digits; `none` models `NaN`. -/
def parseIntJs (s : String) : Option Int :=
  match s.data with
  | '-' :: rest =>
    (match splitDigits rest with
     | ([], _) => none
     | (ds, _) => some (-(digitsToNat ds 0 : Int)))
  | cs =>
    (match splitDigits cs with
     | ([], _) => none
     | (ds, _) => some ((digitsToNat ds 0 : Int)))

/-- The `pool` block of the mssql configuration. -/
structure PoolSizing where
  max : Nat
  min : Nat
  idleTimeoutMillis : Nat
deriving DecidableEq

structure MssqlOptions where
  encrypt : Bool
  trustServerCertificate : Bool
deriving DecidableEq

/-- The object `getDbConfig` returns. -/
structure DbConfig where
  user : String
  password : String
  server : String
  port : Option Int
  database : String
  requestTimeout : Nat
  connectionTimeout : Nat
  options : MssqlOptions
  pool : PoolSizing
deriving DecidableEq

/-- The `process.env[key] || dflt`. -/
def envOrDefault (env : Env) (key dflt : String) : String :=
  match env key with
  | some v => if v = "" then dflt else v
  | none => dflt

/-- The `getDbConfig` (database.js:29-49): validate, then build the configuration.
Host, port, credentials and database name come from the environment; the
request/connection timeouts and the pool sizing block are numeric literals in
the source. -/
def getDbConfig (env : Env) : Except String DbConfig :=
  match validateEnvironment env with
  | .error e => .error e
  | .ok _ =>
    .ok { user := (env "DB_USER").getD "",
          password := (env "DB_PASSWORD").getD "",
          server := (env "DB_HOST").getD "",
          port := parseIntJs (envOrDefault env "DB_PORT" "1433"),
          database := (env "DB_NAME").getD "",
          requestTimeout := 30000,
          connectionTimeout := 15000,
          options := { encrypt := false, trustServerCertificate := true },
          pool := { max := 25, min := 5, idleTimeoutMillis := 60000 } }

/-- The synchronous part of one `getConnectionPool()` call
(database.js:58-104 up to `await poolConnect`).  When `poolConnect` is
null the async IIFE runs synchronously:
 * valid configuration — a `ConnectionPool` is constructed, `pool.connect()`
   is started, the IIFE suspends at the `await`, and its pending promise is
   stored in `poolConnect`;
 * `getDbConfig` throws — the catch clears `pool` and `poolConnect` and
   rethrows, the IIFE therefore returns an already-rejected promise, and the
   enclosing `poolConnect = (async () => …)()` assignment runs *after* the
   catch, storing that rejected promise and overwriting the null the catch
   just wrote.
Either way every caller then awaits the promise now held in `poolConnect`. -/
def getConnectionPoolEnter (env : Env) (st : PoolModule) :
    PoolModule × AcquireOutcome :=
  if st.isShuttingDown then
    (st, .threw "Cannot get connection pool during shutdown")
  else
    match st.poolConnect with
    | some pid => (st, .awaits pid)
    | none =>
      let pid := st.promises.length
      match getDbConfig env with
      | .ok _cfg =>
        ({ st with pool := some st.poolsCreated,
                   poolsCreated := st.poolsCreated + 1,
                   connectStarts := st.connectStarts + 1,
                   promises := st.promises ++ [.pending],
                   poolConnect := some pid }, .awaits pid)
      | .error msg =>
        ({ st with pool := none,
                   promises := st.promises ++ [.rejected msg],
                   poolConnect := some pid }, .awaits pid)

/-- The `await pool.connect()` succeeds: the in-flight initialization resolves. -/
def connectResolves (st : PoolModule) : PoolModule :=
  { st with promises :=
      (st.promises.map (fun p => match p with | .pending => .resolved | q => q)) }

/-- The `await pool.connect()` fails: the catch clears `pool` and `poolConnect`
(this time after the assignment, so the clearing sticks) and the promise
rejects. -/
def connectFails (st : PoolModule) (msg : String) : PoolModule :=
  { st with pool := none, poolConnect := none,
            promises :=
              (st.promises.map (fun p => match p with | .pending => .rejected msg | q => q)) }

/-- A caller resuming from `await poolConnect` on promise `pid`, then
re-reading the module `pool` variable (database.js:104-111).  `none` while the
promise is still pending. -/
def awaitOutcome (st : PoolModule) (pid : Nat) : Option (Except String Nat) :=
  match st.promises.get? pid with
  | some .resolved =>
    some (match st.pool with
          | none => .error "Connection pool is not available. Please try again."
          | some p => .ok p)
  | some (.rejected m) => some (.error m)
  | some .pending => none
  | none => none

/-- The `n` concurrent callers entering `getConnectionPool()` back to back on the
event loop (all before the connect settles). -/
def enterMany (env : Env) : Nat → PoolModule → PoolModule × List AcquireOutcome
  | 0, st => (st, [])
  | n + 1, st =>
    let r1 := getConnectionPoolEnter env st
    let r2 := enterMany env n r1.1
    (r2.1, r1.2 :: r2.2)

/-- The `executeQuery` (database.js:163-192): run the unit of work; on failure
reset the pool exactly when the error code is in the fatal-connection list,
then rethrow the untouched error.  The returned flag records whether
`resetConnectionPool()` ran. -/
def CONNECTION_ERROR_CODES : List String :=
  ["ESOCKET", "ECONNRESET", "ETIMEDOUT", "EHOSTUNREACH"]

/-- A raised JavaScript error as `executeQuery` sees it. -/
structure JsError where
  code : Option String
  message : String
deriving DecidableEq

/-- The `CONNECTION_ERROR_CODES.includes(err.code)` (`includes(undefined)` is
false). -/
def isFatalConnectionCode (err : JsError) : Bool :=
  match err.code with
  | some c => CONNECTION_ERROR_CODES.contains c
  | none => false

def executeQuery {α : Type} (queryFn : Except JsError α) : Except JsError α × Bool :=
  match queryFn with
  | .ok result => (.ok result, false)
  | .error err => (.error err, isFatalConnectionCode err)

/-! ## `src/utils/errorHandler.js` -/

/-- The raw driver/runtime error wrapped by `DatabaseError` (`code` and
`message` may each be absent). -/
structure RawError where
  code : Option String
  message : Option String

/-- Substring test: JavaScript's `String.prototype.includes`. -/
def hasSub (pat : List Char) : List Char → Bool
  | [] => pat.isEmpty
  | c :: rest => pat.isPrefixOf (c :: rest) || hasSub pat rest

def strIncludes (s pat : String) : Bool := hasSub pat.data s.data

/-- The `toUpperCase` over the code points (ASCII, as the error codes are). -/
def upperStr (s : String) : String := String.mk (s.data.map Char.toUpper)

/-- The `toLowerCase` over the code points (ASCII, as the driver messages are). -/
def lowerStr (s : String) : String := String.mk (s.data.map Char.toLower)

/-- The connection-family condition of `categorizeError`: the
refused/not-found/socket codes, or a message mentioning "connection" or
"pool". -/
def connectionMatch (error : RawError) : Bool :=
  let errorCode := error.code.map upperStr
  let errorMessage := (error.message.map lowerStr).getD ""
  errorCode == some "ECONNREFUSED" || errorCode == some "ENOTFOUND"
    || errorCode == some "ESOCKET"
    || strIncludes errorMessage "connection" || strIncludes errorMessage "pool"

/-- The timeout-family condition of `categorizeError`: the timeout codes, or
a message mentioning "timeout". -/
def timeoutMatch (error : RawError) : Bool :=
  let errorCode := error.code.map upperStr
  let errorMessage := (error.message.map lowerStr).getD ""
  errorCode == some "ETIMEOUT" || errorCode == some "ETIMEDOUT"
    || strIncludes errorMessage "timeout"

/-- The `DatabaseError.categorizeError` (errorHandler.js:15-33): connection
failures → 503, else timeouts → 504, else 500. -/
def categorizeError (error : RawError) : Nat :=
  if connectionMatch error then 503
  else if timeoutMatch error then 504
  else 500

/-- The `DatabaseError.getErrorCode`. -/
def getErrorCode (statusCode : Nat) : String :=
  if statusCode = 503 then "DATABASE_UNAVAILABLE"
  else if statusCode = 504 then "DATABASE_TIMEOUT"
  else "DATABASE_ERROR"

/-- The `DatabaseError.getUserMessage`: a fixed string per status category. -/
def getUserMessage (statusCode : Nat) : String :=
  if statusCode = 503 then "Database service is temporarily unavailable"
  else if statusCode = 504 then "Database request timed out"
  else "An error occurred while processing your request"

/-- The sanitized body `errorMiddleware` sends. -/
structure ErrorBody where
  code : String
  message : String
  status : Nat
deriving DecidableEq

/-- An error reaching `errorMiddleware`: a `DatabaseError`, or any other
error object carrying a `statusCode` (such as `http-errors`' 404). -/
inductive MwError where
  | dbError (raw : RawError)
  | httpError (statusCode : Nat)

/-- The `errorMiddleware` (errorHandler.js:55-93): delegate when headers were
sent; otherwise status/code/message from the `DatabaseError`, or the default
`INTERNAL_ERROR` body with the error's own truthy `statusCode`. -/
def errorMiddleware (err : MwError) (headersSent : Bool) : Option ErrorBody :=
  if headersSent then none
  else
    match err with
    | .dbError raw =>
      some { code := getErrorCode (categorizeError raw),
             message := getUserMessage (categorizeError raw),
             status := categorizeError raw }
    | .httpError statusCode =>
      if statusCode ≠ 0 then
        some { code := "INTERNAL_ERROR",
               message := "An unexpected error occurred",
               status := statusCode }
      else
        some { code := "INTERNAL_ERROR",
               message := "An unexpected error occurred",
               status := 500 }

/-! ## Routing (`src/app.js`, `src/routes/apiRouter.js`) -/

/-- The paths registered on the API router. -/
def apiRouterPaths : List String :=
  ["/", "/initial-test", "/record-count", "/failure-test"]

/-- How the application answers a GET request. -/
inductive AppResponse where
  | apiHandled (subpath : String)
  | pageHandled (path : String)
  | renderedErrorPage (status : Nat)
deriving DecidableEq

/-- Whether `pre` is a prefix of `s` (over the code points). -/
def strStarts (s pre : String) : Bool := pre.data.isPrefixOf s.data

/-- Path dispatch of `app.js`: the index router at `/`, the `/ajax` stub, the
API router under `/api`, the monitoring endpoint; everything unmatched falls
to the catch-all `next(createError(404))`, whose error handler responds with
`res.status(404).render("error")` — the EJS-rendered HTML error page. -/
def appDispatch (path : String) : AppResponse :=
  if path = "/" then .pageHandled path
  else if path = "/ajax" then .pageHandled path
  else if strStarts path "/api/" || path == "/api" then
    let sub := if path = "/api" then "/" else path.drop 4
    if apiRouterPaths.contains sub then .apiHandled sub
    else .renderedErrorPage 404
  else if path = "/health/threads" then .pageHandled path
  else .renderedErrorPage 404

/-- The error handler `app.js` registers (lines 119-127) — the only error
handler the application installs; the JSON `errorMiddleware` of
errorHandler.js is never wired in.  It runs `res.status(err.status || 500);
res.render("error")`: one EJS-rendered HTML error page.  `status` is the
delegated error's optional `status` field; a falsy value (absent, or 0)
falls back to 500.  A `DatabaseError` carries `statusCode`, not `status`,
so a streaming error delegated via `next` reaches this handler with
`status` absent and the page is rendered with status 500. -/
def appErrorHandler (status : Option Nat) : AppResponse :=
  match status with
  | some s => .renderedErrorPage (if s = 0 then 500 else s)
  | none => .renderedErrorPage 500

/-! ## Supporting lemmas and fixtures for the claims -/

/-- A complete environment (all required variables truthy). -/
def envComplete : Env := fun key =>
  if key = "DB_USER" then some "sa"
  else if key = "DB_PASSWORD" then some "secret"
  else if key = "DB_HOST" then some "localhost"
  else if key = "DB_NAME" then some "TestDB"
  else none

/-- The same environment with `DB_USER` absent. -/
def envMissingUser : Env := fun key =>
  if key = "DB_PASSWORD" then some "secret"
  else if key = "DB_HOST" then some "localhost"
  else if key = "DB_NAME" then some "TestDB"
  else none

/-- A complete environment that additionally tries to override the pool
sizing through plausible environment variables. -/
def envPoolOverrides : Env := fun key =>
  if key = "DB_USER" then some "sa"
  else if key = "DB_PASSWORD" then some "secret"
  else if key = "DB_HOST" then some "localhost"
  else if key = "DB_NAME" then some "TestDB"
  else if key = "DB_POOL_MAX" then some "50"
  else if key = "DB_POOL_MIN" then some "10"
  else if key = "DB_IDLE_TIMEOUT" then some "5000"
  else none

/-- The module state right after the first caller started the one
initialization: pool object 0 constructed, one connect sequence running,
`poolConnect` holding the pending promise 0. -/
def firstInitState : PoolModule :=
  { pool := some 0, poolConnect := some 0, promises := [.pending],
    connectStarts := 1, poolsCreated := 1 }

/-- The first `getConnectionPool()` call on a valid environment. -/
theorem enter_first (env : Env) (hval : missingEnv env = []) :
    getConnectionPoolEnter env {} = (firstInitState, .awaits 0) := by
  simp [getConnectionPoolEnter, getDbConfig, validateEnvironment, hval, firstInitState]

/-- Any further call while the initialization is in flight changes nothing
and awaits the same promise. -/
theorem enter_inflight (env : Env) :
    getConnectionPoolEnter env firstInitState = (firstInitState, .awaits 0) := rfl

/-- All callers arriving during the in-flight initialization: state unchanged,
every one of them awaits promise 0. -/
theorem enterMany_inflight (env : Env) : ∀ n : Nat,
    enterMany env n firstInitState = (firstInitState, List.replicate n (.awaits 0))
  | 0 => rfl
  | n + 1 => by
    simp [enterMany, enter_inflight, enterMany_inflight env n, List.replicate]

/-- The `n ≥ 1` concurrent callers before any pool exists: exactly one connect
sequence starts and all await promise 0. -/
theorem enterMany_spec (env : Env) (hval : missingEnv env = []) (n : Nat)
    (hn : 1 ≤ n) :
    enterMany env n {} = (firstInitState, List.replicate n (.awaits 0)) := by
  obtain ⟨m, rfl⟩ : ∃ m, n = m + 1 := ⟨n - 1, by omega⟩
  simp [enterMany, enter_first env hval, enterMany_inflight, List.replicate]

/-- The malformed wire bytes of the FOR JSON PATH counterexample run:
`{"data": [,"success":false,"error":"boom"}` — the fragment `[` was written,
the driver errored, and `createSafeEndJSON` (with `recordsetStarted` false and
`dataStarted` true) appended the metadata with no closing `]`. -/
def badWire : List Char :=
  "\x7b\"data\": [,\"success\":false,\"error\":\"boom\"\x7d".data

/-- The bytes of `badWire` after its `[`. -/
def badTail : List Char :=
  ",\"success\":false,\"error\":\"boom\"\x7d".data

/-- The reader rejects `badTail` at once: no JSON value starts with `,`. -/
theorem badTail_blocked (m : Nat) : jparse m badTail = none := by
  match m with
  | 0 => rfl
  | _ + 1 => rfl

/-- Array elements cannot be read off `badTail` either. -/
theorem badItems_blocked (m : Nat) : jparseItems (m + 1) badTail = none := by
  show (match jparse m badTail with
        | none => none
        | some (j, r) =>
          match dropWs r with
          | ',' :: r2 =>
            (match jparseItems m r2 with
             | some (items, rest) => some (j :: items, rest)
             | none => none)
          | ']' :: r2 => some ([j], r2)
          | _ => none) = none
  rw [badTail_blocked m]

/-- The `data` value (after the `:` and its space) cannot be completed. -/
theorem badValue_blocked (m : Nat) : jparse (m + 2) (' ' :: '[' :: badTail) = none := by
  show (match jparseItems (m + 1) badTail with
        | some (items, rest) => some (Json.arr items, rest)
        | none => none) = none
  rw [badItems_blocked m]

/-- The object members of `badWire` cannot be completed. -/
theorem badProps_blocked (m : Nat) :
    jparseProps (m + 3)
      ('"' :: 'd' :: 'a' :: 't' :: 'a' :: '"' :: ':' :: ' ' :: '[' :: badTail) = none := by
  show (match jparse (m + 2) (' ' :: '[' :: badTail) with
        | none => none
        | some (v, r3) =>
          match dropWs r3 with
          | ',' :: r4 =>
            (match jparseProps (m + 2) r4 with
             | some (props, rest) =>
               some ((String.mk ['d', 'a', 't', 'a'], v) :: props, rest)
             | none => none)
          | '}' :: r4 => some ([(String.mk ['d', 'a', 't', 'a'], v)], r4)
          | _ => none) = none
  rw [badValue_blocked m]

/-- No amount of fuel parses `badWire`: its `data` array is unterminated. -/
theorem jparse_badWire (fuel : Nat) : jparse fuel badWire = none := by
  match fuel with
  | 0 => rfl
  | 1 => rfl
  | 2 => rfl
  | 3 => rfl
  | m + 4 =>
    show (match jparseProps (m + 3)
            ('"' :: 'd' :: 'a' :: 't' :: 'a' :: '"' :: ':' :: ' ' :: '[' :: badTail) with
          | some (props, rest) => some (Json.obj props, rest)
          | none => none) = none
    rw [badProps_blocked m]

/-- Terminals consisting of a single driver/timer event (normal completion, a
driver error, or the timeout alone — not the timeout followed by the canceled
driver's error event). -/
def isTimeoutThenError : TerminalEv → Bool
  | .timesOutThenErrors _ => true
  | _ => false

/-! ## The claims -/

/-- C1.  Single-flight pool initialization: for every environment whose
required variables are present and every number `n ≥ 1` of concurrent
`getConnectionPool()` calls made before any pool exists, exactly one
underlying connect sequence is started (`connectStarts = 1`, one
`ConnectionPool` constructed), every caller awaits the same in-flight
initialization (promise 0) — never a second one — and once that
initialization resolves, every caller's await yields the same pool
instance 0. -/
theorem getConnectionPool_single_flight (env : Env) (hval : missingEnv env = [])
    (n : Nat) (hn : 1 ≤ n) :
    (enterMany env n {}).1.connectStarts = 1
  ∧ (enterMany env n {}).1.poolsCreated = 1
  ∧ (enterMany env n {}).2 = List.replicate n (.awaits 0)
  ∧ (∀ o ∈ (enterMany env n {}).2, o = .awaits 0)
  ∧ awaitOutcome (connectResolves (enterMany env n {}).1) 0 = some (.ok 0) := by
  rw [enterMany_spec env hval n hn]
  refine ⟨rfl, rfl, rfl, ?_, rfl⟩
  intro o ho
  exact List.eq_of_mem_replicate ho

/-- C1, witness: 100 concurrent callers on a complete environment. -/
theorem getConnectionPool_single_flight_witness :
    missingEnv envComplete = [] ∧ 1 ≤ 100
  ∧ ((enterMany envComplete 100 {}).1.connectStarts = 1
      ∧ (enterMany envComplete 100 {}).1.poolsCreated = 1
      ∧ (enterMany envComplete 100 {}).2 = List.replicate 100 (.awaits 0)
      ∧ (∀ o ∈ (enterMany envComplete 100 {}).2, o = .awaits 0)
      ∧ awaitOutcome (connectResolves (enterMany envComplete 100 {}).1) 0
          = some (.ok 0)) :=
  ⟨by decide, by decide,
   getConnectionPool_single_flight envComplete (by decide) 100 (by decide)⟩

/-- C2, amended.  Streaming responses end as well-formed JSON with a `data`
array and a `success` boolean: in `streamRecords` (manual assembly) for every
terminal outcome — normal completion, mid-stream driver error (which also
covers a client disconnect, surfacing as the canceled driver's error), a
mid-stream timeout, a timeout followed by the canceled driver's error, and
the zero-row case (`rows = []`); in `streamRecords_FOR_JSON_PATH` on normal
completion whenever the driver delivered the complete rendered array, and on
any terminal outcome when no fragment reached the wire.  (A mid-stream error
or timeout in FOR JSON PATH mode after a partial fragment is the amended-away
case: see the counterexample.) -/
theorem streaming_json_wellformed :
    (∀ (rows : List JsData) (t : TerminalEv),
        GoodStreamBody ((manualRun rows t).res.wire))
  ∧ (∀ (frags : List String) (items : List Json) (r : Option Json),
        fragsChars frags = (Json.arr items).emit →
        GoodStreamBody ((fjpRun frags (.completes r)).res.wire))
  ∧ (∀ (frags : List String) (t : TerminalEv),
        anyNonEmpty frags = false →
        GoodStreamBody ((fjpRun frags t).res.wire)) := by
  refine ⟨?_, ?_, ?_⟩
  · intro rows t
    cases t with
    | completes r =>
      rw [(manualRun_spec rows (.completes r)).1,
        show terminalMetadata (.completes r) = createMetadata true none r from rfl]
      exact goodStreamBody_respDoc (rows.map stringifiedValue) true none r
    | failsMidStream m =>
      rw [(manualRun_spec rows (.failsMidStream m)).1,
        show terminalMetadata (.failsMidStream m)
          = createMetadata false
              (some (if m = "" then "Database streaming error" else m)) none from rfl]
      exact goodStreamBody_respDoc (rows.map stringifiedValue) false _ none
    | timesOut =>
      rw [(manualRun_spec rows .timesOut).1,
        show terminalMetadata .timesOut
          = createMetadata false (some "Query timeout") none from rfl]
      exact goodStreamBody_respDoc (rows.map stringifiedValue) false _ none
    | timesOutThenErrors m =>
      rw [(manualRun_spec rows (.timesOutThenErrors m)).1,
        show terminalMetadata (.timesOutThenErrors m)
          = createMetadata false (some "Query timeout") none from rfl]
      exact goodStreamBody_respDoc (rows.map stringifiedValue) false _ none
  · intro frags items r hjoin
    rw [(fjpRun_done_spec frags items r hjoin).1]
    exact goodStreamBody_respDoc items true none r
  · intro frags t hna
    cases t with
    | completes r =>
      rw [(fjpRun_nodata_spec frags (.completes r) hna).1,
        show terminalMetadata (.completes r) = createMetadata true none r from rfl]
      exact goodStreamBody_respDoc [] true none r
    | failsMidStream m =>
      rw [(fjpRun_nodata_spec frags (.failsMidStream m) hna).1,
        show terminalMetadata (.failsMidStream m)
          = createMetadata false
              (some (if m = "" then "Database streaming error" else m)) none from rfl]
      exact goodStreamBody_respDoc [] false _ none
    | timesOut =>
      rw [(fjpRun_nodata_spec frags .timesOut hna).1,
        show terminalMetadata .timesOut
          = createMetadata false (some "Query timeout") none from rfl]
      exact goodStreamBody_respDoc [] false _ none
    | timesOutThenErrors m =>
      rw [(fjpRun_nodata_spec frags (.timesOutThenErrors m) hna).1,
        show terminalMetadata (.timesOutThenErrors m)
          = createMetadata false (some "Query timeout") none from rfl]
      exact goodStreamBody_respDoc [] false _ none

/-- C2, witness: a one-row manual stream killed by a driver error, a FOR JSON
PATH stream whose two fragments form the complete (empty) array, and a FOR
JSON PATH stream with no fragments that times out. -/
theorem streaming_json_wellformed_witness :
    fragsChars ["[", "]"] = (Json.arr []).emit
  ∧ anyNonEmpty ([] : List String) = false
  ∧ GoodStreamBody ((manualRun [JsData.val (Json.str "x")]
      (.failsMidStream "boom")).res.wire)
  ∧ GoodStreamBody ((fjpRun ["[", "]"] (.completes none)).res.wire)
  ∧ GoodStreamBody ((fjpRun [] .timesOut).res.wire) :=
  ⟨by decide, by decide,
   streaming_json_wellformed.1 [JsData.val (Json.str "x")] (.failsMidStream "boom"),
   streaming_json_wellformed.2.1 ["[", "]"] [] none (by decide),
   streaming_json_wellformed.2.2 [] .timesOut (by decide)⟩

/-- C2, counterexample.  In `streamRecords_FOR_JSON_PATH`, a driver error
after the partial fragment `[` makes `createSafeEndJSON` (with
`recordsetStarted` false and `dataStarted` true) append the metadata with no
closing bracket: the response bytes are
`{"data": [,"success":false,"error":"boom"}`, which no amount of fuel parses
as JSON — an unterminated array reaches the client. -/
theorem streaming_json_fjp_unterminated :
    (fjpRun ["["] (.failsMidStream "boom")).res.wire = badWire
  ∧ ¬ GoodStreamBody ((fjpRun ["["] (.failsMidStream "boom")).res.wire) := by
  have hw : (fjpRun ["["] (.failsMidStream "boom")).res.wire = badWire := by decide
  refine ⟨hw, ?_⟩
  rw [hw]
  rintro ⟨fuel, props, items, b, hp, -, -⟩
  rw [jparse_badWire fuel] at hp
  exact Option.noConfusion hp

/-- C3.  `executeQuery` is error-transparent with a reset side effect: on
success it returns the unit of work's result unchanged and does not reset; on
failure it rethrows exactly the original error object, and the pool reset runs
if and only if the error's `code` is in
`{ESOCKET, ECONNRESET, ETIMEDOUT, EHOSTUNREACH}`. -/
theorem executeQuery_error_transparent {α : Type} (queryFn : Except JsError α) :
    (executeQuery queryFn).1 = queryFn
  ∧ (∀ r, queryFn = .ok r → (executeQuery queryFn).2 = false)
  ∧ (∀ e, queryFn = .error e →
      ((executeQuery queryFn).2 = true ↔ e.code ∈ CONNECTION_ERROR_CODES.map some)) := by
  refine ⟨?_, ?_, ?_⟩
  · cases queryFn <;> rfl
  · rintro r rfl
    rfl
  · rintro e rfl
    show (isFatalConnectionCode e = true ↔ _)
    cases hc : e.code with
    | none => simp [isFatalConnectionCode, hc, List.mem_map]
    | some c =>
      simp [isFatalConnectionCode, hc, List.mem_map, List.contains_iff_exists_mem_beq,
        beq_iff_eq]

/-- C3, witness: a successful work unit, a fatal `ESOCKET` failure, and a
non-fatal `EREQUEST` failure. -/
theorem executeQuery_error_transparent_witness :
    (executeQuery (α := Nat) (.ok 7)).1 = .ok 7
  ∧ (executeQuery (α := Nat) (.ok 7)).2 = false
  ∧ ((executeQuery (α := Nat) (.error ⟨some "ESOCKET", "socket hang up"⟩)).2 = true
      ↔ (some "ESOCKET") ∈ CONNECTION_ERROR_CODES.map some)
  ∧ ((executeQuery (α := Nat) (.error ⟨some "EREQUEST", "bad query"⟩)).2 = true
      ↔ (some "EREQUEST") ∈ CONNECTION_ERROR_CODES.map some) :=
  ⟨(executeQuery_error_transparent (.ok 7)).1,
   (executeQuery_error_transparent (.ok 7)).2.1 7 rfl,
   (executeQuery_error_transparent _).2.2 ⟨some "ESOCKET", "socket hang up"⟩ rfl,
   (executeQuery_error_transparent _).2.2 ⟨some "EREQUEST", "bad query"⟩ rfl⟩

/-- C4.  `DatabaseError` classification is total (defined for every raw
error, missing `code`/`message` included) and category-correct, reading the
two conditions in the order the code checks them: connection-family code or a
message mentioning "connection"/"pool" → 503; otherwise timeout-family code or
a message mentioning "timeout" → 504; otherwise 500.  The user-facing message
is always one of the three fixed strings and depends only on the category,
never on the raw driver message. -/
theorem databaseError_total_classification (error : RawError) :
    (connectionMatch error = true → categorizeError error = 503)
  ∧ (connectionMatch error = false → timeoutMatch error = true →
      categorizeError error = 504)
  ∧ (connectionMatch error = false → timeoutMatch error = false →
      categorizeError error = 500)
  ∧ (getUserMessage (categorizeError error)
        = "Database service is temporarily unavailable"
      ∨ getUserMessage (categorizeError error) = "Database request timed out"
      ∨ getUserMessage (categorizeError error)
        = "An error occurred while processing your request")
  ∧ (∀ error2 : RawError, categorizeError error = categorizeError error2 →
      getUserMessage (categorizeError error)
        = getUserMessage (categorizeError error2)) := by
  refine ⟨?_, ?_, ?_, ?_, ?_⟩
  · intro h
    simp [categorizeError, h]
  · intro h1 h2
    simp [categorizeError, h1, h2]
  · intro h1 h2
    simp [categorizeError, h1, h2]
  · by_cases h1 : connectionMatch error <;> by_cases h2 : timeoutMatch error <;>
      simp [categorizeError, getUserMessage, h1, h2]
  · intro e2 h
    rw [h]

/-- C4, witness: a refused connection (503), a plain timeout message (504),
and a generic request error (500). -/
theorem databaseError_total_classification_witness :
    categorizeError ⟨some "ECONNREFUSED", none⟩ = 503
  ∧ categorizeError ⟨none, some "Query timeout expired"⟩ = 504
  ∧ categorizeError ⟨some "EREQUEST", some "Invalid object name"⟩ = 500 :=
  ⟨(databaseError_total_classification ⟨some "ECONNREFUSED", none⟩).1 (by decide),
   (databaseError_total_classification ⟨none, some "Query timeout expired"⟩).2.1
     (by decide) (by decide),
   (databaseError_total_classification ⟨some "EREQUEST", some "Invalid object name"⟩).2.2.1
     (by decide) (by decide)⟩

/-- C5, amended.  The response is ended exactly once — no write or end after
the response has ended, and no scenario leaves it unended — for a mid-stream
driver error, normal completion, and the timeout alone; and on a header-setup
failure the controller itself writes and ends nothing and calls `next` with
the wrapped error exactly once, after which the application's registered
error handler (app.js — the only one installed) sends a single response by
rendering the EJS HTML error page with status 500, the `DatabaseError`
carrying `statusCode` rather than `status`.  When the timeout ends the
response and the canceled driver then emits its own error,
`createSafeEndJSON` runs again: one extra `end()` and writes against the
finished stream (the amended-away case; see the counterexample). -/
theorem response_single_end (rows : List JsData) (t : TerminalEv)
    (h : isTimeoutThenError t = false) :
    (manualRun rows t).res.endCalls = 1
  ∧ (manualRun rows t).res.lateOps = 0
  ∧ (manualRun rows t).res.ended = true
  ∧ (manualRun rows t).nextCalledWith = none
  ∧ ((runStreamRecords [.recordset false]).res.endCalls = 0
      ∧ (runStreamRecords [.recordset false]).res.wire = []
      ∧ (runStreamRecords [.recordset false]).res.ended = false
      ∧ (runStreamRecords [.recordset false]).nextCalledWith = some "header setup"
      ∧ appErrorHandler none = .renderedErrorPage 500) := by
  have hs := manualRun_spec rows t
  refine ⟨?_, ?_, hs.2.1, hs.2.2.2.2, by decide⟩
  · rw [hs.2.2.1]
    cases t <;> first | rfl | exact absurd h (by simp [isTimeoutThenError])
  · rw [hs.2.2.2.1]
    cases t <;> first | rfl | exact absurd h (by simp [isTimeoutThenError])

/-- C5, witness: a two-row stream ended by a driver error. -/
theorem response_single_end_witness :
    isTimeoutThenError (.failsMidStream "boom") = false
  ∧ ((manualRun [JsData.val Json.null, JsData.val (Json.bool true)]
        (.failsMidStream "boom")).res.endCalls = 1
      ∧ (manualRun [JsData.val Json.null, JsData.val (Json.bool true)]
          (.failsMidStream "boom")).res.lateOps = 0
      ∧ (manualRun [JsData.val Json.null, JsData.val (Json.bool true)]
          (.failsMidStream "boom")).res.ended = true
      ∧ (manualRun [JsData.val Json.null, JsData.val (Json.bool true)]
          (.failsMidStream "boom")).nextCalledWith = none
      ∧ ((runStreamRecords [.recordset false]).res.endCalls = 0
          ∧ (runStreamRecords [.recordset false]).res.wire = []
          ∧ (runStreamRecords [.recordset false]).res.ended = false
          ∧ (runStreamRecords [.recordset false]).nextCalledWith = some "header setup"
          ∧ appErrorHandler none = .renderedErrorPage 500)) :=
  ⟨by decide,
   response_single_end [JsData.val Json.null, JsData.val (Json.bool true)]
     (.failsMidStream "boom") (by decide)⟩

/-- C5, counterexample.  The scenario the claim itself lists — the timeout
fires mid-stream and ends the response, then the canceled driver emits its
own error event — ends the response twice: the error handler calls
`createSafeEndJSON` again, producing a second `end()` and three
write/end attempts against the already-finished stream. -/
theorem response_double_end_on_timeout_then_error :
    (manualRun [JsData.val (Json.str "x")] (.timesOutThenErrors "Cancelled.")).res.endCalls = 2
  ∧ (manualRun [JsData.val (Json.str "x")] (.timesOutThenErrors "Cancelled.")).res.lateOps = 3 := by
  have hs := manualRun_spec [JsData.val (Json.str "x")] (.timesOutThenErrors "Cancelled.")
  exact ⟨hs.2.2.1, hs.2.2.2.1⟩

/-- C6, amended.  `getDbConfig` reads host, port, credentials and database
name from the environment (the port defaulting to `"1433"` when `DB_PORT` is
falsy), but the pool sizing — max 25, min 5, idle eviction 60000 ms — and the
request (30000 ms) and connection (15000 ms) timeouts are numeric literals in
the source, not configuration inputs; the three timeouts are nonetheless
pairwise distinct values. -/
theorem getDbConfig_fixed_sizing (env : Env) (hval : missingEnv env = []) :
    getDbConfig env
      = .ok { user := (env "DB_USER").getD "",
              password := (env "DB_PASSWORD").getD "",
              server := (env "DB_HOST").getD "",
              port := parseIntJs (envOrDefault env "DB_PORT" "1433"),
              database := (env "DB_NAME").getD "",
              requestTimeout := 30000,
              connectionTimeout := 15000,
              options := { encrypt := false, trustServerCertificate := true },
              pool := { max := 25, min := 5, idleTimeoutMillis := 60000 } }
  ∧ (30000 : Nat) ≠ 15000 ∧ (30000 : Nat) ≠ 60000 ∧ (15000 : Nat) ≠ 60000 := by
  refine ⟨?_, by decide, by decide, by decide⟩
  simp [getDbConfig, validateEnvironment, hval]

/-- C6, witness: the fixed sizing on the complete environment. -/
theorem getDbConfig_fixed_sizing_witness :
    missingEnv envComplete = []
  ∧ (getDbConfig envComplete
      = .ok { user := (envComplete "DB_USER").getD "",
              password := (envComplete "DB_PASSWORD").getD "",
              server := (envComplete "DB_HOST").getD "",
              port := parseIntJs (envOrDefault envComplete "DB_PORT" "1433"),
              database := (envComplete "DB_NAME").getD "",
              requestTimeout := 30000,
              connectionTimeout := 15000,
              options := { encrypt := false, trustServerCertificate := true },
              pool := { max := 25, min := 5, idleTimeoutMillis := 60000 } }
    ∧ (30000 : Nat) ≠ 15000 ∧ (30000 : Nat) ≠ 60000 ∧ (15000 : Nat) ≠ 60000) :=
  ⟨by decide, getDbConfig_fixed_sizing envComplete (by decide)⟩

/-- C6, counterexample.  The pool sizing is not read from the environment and
cannot be overridden by it: an environment that sets plausible override
variables (`DB_POOL_MAX=50`, `DB_POOL_MIN=10`, `DB_IDLE_TIMEOUT=5000`)
produces exactly the same hardcoded `max 25 / min 5 / idle 60000` block as
one that sets nothing beyond the required variables. -/
theorem pool_sizing_ignores_environment :
    getDbConfig envPoolOverrides
      = .ok { user := "sa", password := "secret", server := "localhost",
              port := some 1433, database := "TestDB",
              requestTimeout := 30000, connectionTimeout := 15000,
              options := { encrypt := false, trustServerCertificate := true },
              pool := { max := 25, min := 5, idleTimeoutMillis := 60000 } }
  ∧ getDbConfig envComplete
      = .ok { user := "sa", password := "secret", server := "localhost",
              port := some 1433, database := "TestDB",
              requestTimeout := 30000, connectionTimeout := 15000,
              options := { encrypt := false, trustServerCertificate := true },
              pool := { max := 25, min := 5, idleTimeoutMillis := 60000 } } :=
  ⟨rfl, rfl⟩

/-- C7.  The code has no `ROUTE_NOT_FOUND` path: a request to an unmatched
`/api/*` path falls through the API router to the application-level catch-all,
whose error handler responds `res.status(404).render("error")` — an
EJS-rendered HTML page, not the documented JSON body — and even the (never
registered) JSON `errorMiddleware` would answer a 404 error with code
`INTERNAL_ERROR`, not `ROUTE_NOT_FOUND`. -/
theorem unmatched_api_renders_html_not_route_not_found :
    appDispatch "/api/invalid-endpoint" = .renderedErrorPage 404
  ∧ errorMiddleware (.httpError 404) false
      = some { code := "INTERNAL_ERROR",
               message := "An unexpected error occurred", status := 404 }
  ∧ getErrorCode 404 ≠ "ROUTE_NOT_FOUND"
  ∧ "INTERNAL_ERROR" ≠ "ROUTE_NOT_FOUND" := by
  refine ⟨by decide, by decide, by decide, by decide⟩

/-- C8.  Configuration failure IS cached, contrary to the claim and to the
source's own `// Reset to allow retry` comment: with `DB_USER` missing, the
first `getConnectionPool()` call rejects with the configuration error, but the
async IIFE's catch runs synchronously and its `poolConnect = null` is then
overwritten by the enclosing `poolConnect = (async () => …)()` assignment,
which stores the rejected promise.  A second call — after the environment is
fixed — finds `poolConnect` non-null, starts no fresh initialization, and
rejects with the original `Missing required environment variables: DB_USER`
error. -/
theorem config_failure_cached_in_poolConnect :
    (getConnectionPoolEnter envMissingUser {}).2 = .awaits 0
  ∧ awaitOutcome (getConnectionPoolEnter envMissingUser {}).1 0
      = some (.error "Missing required environment variables: DB_USER")
  ∧ (getConnectionPoolEnter envMissingUser {}).1.poolConnect = some 0
  ∧ (getConnectionPoolEnter envMissingUser {}).1.connectStarts = 0
  ∧ getConnectionPoolEnter envComplete (getConnectionPoolEnter envMissingUser {}).1
      = ((getConnectionPoolEnter envMissingUser {}).1, .awaits 0)
  ∧ awaitOutcome
      (getConnectionPoolEnter envComplete (getConnectionPoolEnter envMissingUser {}).1).1 0
      = some (.error "Missing required environment variables: DB_USER") := by
  refine ⟨rfl, rfl, rfl, rfl, by decide, rfl⟩

/-- C9.  Row serialization never aborts a committed stream: the row handler is
a total step function (no exception channel); `safeJSONStringify` returns, for
every input, the rendering of a JSON value — the value itself, or the fixed
fallback descriptor for unserializable data — and that rendering always
parses; and for every row list the committed stream carries exactly the
serialized rows in order, the failing ones replaced in place by the fallback
descriptor, with the stream still open for the rows after them. -/
theorem row_serialization_never_aborts :
    (∀ r : JsData, ∃ j fuel, safeJSONStringify r = j.emit
        ∧ jparse fuel (safeJSONStringify r) = some (j, []))
  ∧ (∀ rows : List JsData,
      (List.foldl streamRecordsStep afterHeaders (rowEvents rows)).res.wire
          = dataPrefixManual ++ Json.emitItems (rows.map stringifiedValue)
        ∧ (List.foldl streamRecordsStep afterHeaders (rowEvents rows)).res.ended = false)
  ∧ (∀ t : String, stringifiedValue (JsData.unserializable t)
      = Json.obj [("error", .str "Data serialization failed"),
                  ("originalType", .str t)]) := by
  refine ⟨?_, ?_, fun _ => rfl⟩
  · intro r
    refine ⟨stringifiedValue r, (stringifiedValue r).emit.length + 1,
      safeJSONStringify_eq_emit r, ?_⟩
    rw [safeJSONStringify_eq_emit r]
    have := jparse_emit (stringifiedValue r) [] ((stringifiedValue r).emit.length + 1)
      (by omega)
    simpa using this
  · intro rows
    rw [foldRows_spec rows afterHeaders rfl rfl rfl]
    cases rows with
    | nil => exact ⟨by simp [afterHeaders, Json.emitItems, dataPrefixManual], rfl⟩
    | cons r rest => exact ⟨by simp [afterHeaders, dataPrefixManual], rfl⟩

/-- C10.  Classification precedence is deterministic and connection-first:
any raw error matching both the connection condition and the timeout
condition is classified 503, never 504. -/
theorem connection_beats_timeout (error : RawError)
    (hc : connectionMatch error = true) (htm : timeoutMatch error = true) :
    categorizeError error = 503 ∧ categorizeError error ≠ 504 := by
  refine ⟨?_, ?_⟩ <;> simp [categorizeError, hc]

/-- C10, witness: `ESOCKET` with a message mentioning both "connection" and
"timeout" matches both conditions and is classified 503. -/
theorem connection_beats_timeout_witness :
    connectionMatch ⟨some "ESOCKET", some "Connection timeout error"⟩ = true
  ∧ timeoutMatch ⟨some "ESOCKET", some "Connection timeout error"⟩ = true
  ∧ (categorizeError ⟨some "ESOCKET", some "Connection timeout error"⟩ = 503
      ∧ categorizeError ⟨some "ESOCKET", some "Connection timeout error"⟩ ≠ 504) :=
  ⟨by decide, by decide,
   connection_beats_timeout ⟨some "ESOCKET", some "Connection timeout error"⟩
     (by decide) (by decide)⟩

end EMP
